import Mathlib

/-!
# EPT tile decoding (`io/private/ept/TileContents.cpp`) and `Schema` (`src/Schema.cpp`)

A shallow embedding of `pdal::TileContents` and `pdal::Schema`.

* Calls to collaborators whose code is not part of the sources (the storage
  endpoints, `LasReader`, `ZstdDecompressor`, `PointRef` field access,
  `Dimension::size`) are parameters of the model.
* A member function is a function from the object's state to an `Outcome`: the
  state the object is left in, the collaborator calls made (in order), and the
  exception that left the function, if any.  A C++ exception does not undo the
  assignments made before it, so the state of a failed call is kept.
* Counts and sizes (`point_count_t`, `std::size_t`) are natural numbers.
-/

namespace pdal

/-! ## Data model -/

/-- A byte sequence (`std::vector<char>`); only its length and identity are used. -/
abbrev Bytes := List Nat

/-- The values of `Dimension::Id` that the code names, and all the others. -/
inductive Dimension.Id where
  | X
  | Y
  | Z
  | other (n : Nat)
  deriving DecidableEq, Repr

/-- The value of a `Dimension::Type`, kept as its numeric tag. -/
abbrev Dimension.TypeTag := Nat

/-- The values of `EptInfo::DataType`: the three kinds `read` tests for, and any other value. -/
inductive DataType where
  | Laszip
  | Binary
  | Zstandard
  | Other (tag : Nat)
  deriving DecidableEq, Repr

/-- The spatial key of a tile; the code only uses `toString()`. -/
structure Key where
  toString : String
  deriving DecidableEq, Repr

/-- The `Overlap` of a tile: key and point count from the hierarchy. -/
structure Overlap where
  m_key : Key
  m_count : Nat
  deriving DecidableEq, Repr

/-- The layout of a point record; `pointSize` is the record stride in bytes. -/
structure PointLayout where
  pointSize : Nat
  deriving DecidableEq, Repr

/-- A storage endpoint.  Both fetch operations either deliver or throw. -/
structure Endpoint where
  root : String
  getLocalHandle : String → Except String String
  getBinary : String → Except String Bytes

/-- One component (`m_scale`, `m_offset`) of an `XForm`. -/
structure XFormComponent (V : Type) where
  m_val : V

/-- A per-dimension scale and offset. -/
structure XForm (V : Type) where
  m_scale : XFormComponent V
  m_offset : XFormComponent V

/-- The EPT description of a dimension; the code only uses `m_xform`. -/
structure DimType (V : Type) where
  m_xform : XForm V

/-- An addon descriptor. -/
structure Addon where
  srcId : Dimension.Id
  type : Dimension.TypeTag
  layout : PointLayout
  endpoint : Endpoint

/-- The metadata of the EPT resource (`EptInfo`). -/
structure EptInfo (V : Type) where
  dataType : DataType
  endpoint : Endpoint
  remoteLayout : PointLayout
  addons : List Addon
  dimType : Dimension.Id → DimType V

/-- A `VectorPointTable`: a layout and the byte buffer moved into it. -/
structure VectorPointTable where
  layout : PointLayout
  buffer : Bytes
  deriving DecidableEq, Repr

/-- Modelled from the spec: `VectorPointTable::numPoints` (the class is not among the
sources).  The buffer is a byte region of `pointCount × recordStride` bytes, so the number
of records is the buffer length divided by the stride. -/
def VectorPointTable.numPoints (t : VectorPointTable) : Nat :=
  t.buffer.length / t.layout.pointSize

/-- What `m_table` points to: a `PointTable` filled by the LAS reader, or a
`VectorPointTable`. -/
inductive BasePointTable where
  | pointTable
  | vector (t : VectorPointTable)
  deriving DecidableEq, Repr

/-- The exceptions that can leave `read`: the two thrown by the code itself, and whatever a
collaborator throws. -/
inductive Exn where
  | ept_error (what : String)
  | pdal_error (what : String)
  | collaborator (what : String)
  deriving DecidableEq, Repr

/-- The collaborator calls made during a decode, in order.  `readAddon` marks the entry
into `TileContents::readAddon` for the addon with that source id. -/
inductive Event where
  | getLocalHandle (root filename : String)
  | getBinary (root filename : String)
  | lock
  | prepare
  | unlock
  | execute
  | decompress
  | readAddon (srcId : Dimension.Id)
  deriving DecidableEq, Repr

/-- The parts of the program that `TileContents.cpp` calls and whose code is elsewhere.
`P` is a point as seen through a `PointRef`, `V` the type `double`.

* `haveZstd`: whether `PDAL_HAVE_ZSTD` is defined;
* `size`: `Dimension::size`;
* `getFieldAs`, `setField`: `PointRef::getFieldAs<double>` and `PointRef::setField`;
* `point`: the point with a given index of a `VectorPointTable`;
* `prepare`, `execute`: `LasReader::prepare` and `LasReader::execute` on the file named by
  the `filename` option; `execute` returns the first view of the `PointViewSet` and the
  remaining ones;
* `decompress`: `ZstdDecompressor::decompress`, with the bytes its callback received. -/
structure Collaborators (P V : Type) where
  haveZstd : Bool
  size : Dimension.TypeTag → Nat
  getFieldAs : P → Dimension.Id → V
  setField : P → Dimension.Id → V → P
  point : VectorPointTable → Nat → P
  prepare : String → Except String Unit
  execute : String → Except String (List P × List (List P))
  decompress : Bytes → Except String Bytes

/-- The state of a `TileContents` object.  `m_view` is the list of the points of the view;
`none` is the null pointer. -/
structure TileContents (P V : Type) where
  m_info : EptInfo V
  m_overlap : Overlap
  m_table : Option BasePointTable
  m_view : Option (List P)
  m_addonTables : Dimension.Id → Option VectorPointTable

/-- The result of running a member function: the state it leaves, the collaborator calls it
made, and the exception it threw (`none`: it returned). -/
structure Outcome (σ : Type) where
  state : σ
  events : List Event
  error : Option Exn

/-! ## `TileContents` -/

section TileContentsOps

variable {P V : Type} [Mul V] [Add V]

/-- The model of `PointView(*m_table, vpt->numPoints())`: the points `0 .. numPoints-1`. -/
def PointView.ofTable (c : Collaborators P V) (vpt : VectorPointTable) : List P :=
  (List.range vpt.numPoints).map (c.point vpt)

/-- The model of `m_view->size()`. -/
def TileContents.viewSize (t : TileContents P V) : Nat :=
  match t.m_view with
  | some v => v.length
  | none => 0

/-- The model of `TileContents::transform`. -/
def TileContents.transform (c : Collaborators P V) (t : TileContents P V) :
    TileContents P V :=
  let xf := (t.m_info.dimType Dimension.Id.X).m_xform
  let yf := (t.m_info.dimType Dimension.Id.Y).m_xform
  let zf := (t.m_info.dimType Dimension.Id.Z).m_xform
  { t with
    m_view := t.m_view.map (fun view => view.map (fun p =>
      let p := c.setField p Dimension.Id.X
        (c.getFieldAs p Dimension.Id.X * xf.m_scale.m_val + xf.m_offset.m_val)
      let p := c.setField p Dimension.Id.Y
        (c.getFieldAs p Dimension.Id.Y * yf.m_scale.m_val + yf.m_offset.m_val)
      let p := c.setField p Dimension.Id.Z
        (c.getFieldAs p Dimension.Id.Z * zf.m_scale.m_val + zf.m_offset.m_val)
      p)) }

/-- The model of `TileContents::readLaszip`.  The `std::unique_lock` is released by
`lock.unlock()` when `prepare` returns and by its destructor when `prepare` throws. -/
def TileContents.readLaszip (c : Collaborators P V) (t : TileContents P V) :
    Outcome (TileContents P V) :=
  let filename := "ept-data/" ++ t.m_overlap.m_key.toString ++ ".laz"
  let fetch := Event.getLocalHandle t.m_info.endpoint.root filename
  match t.m_info.endpoint.getLocalHandle filename with
  | .error what => ⟨t, [fetch], some (.collaborator what)⟩
  | .ok localPath =>
    let t1 := { t with m_table := some .pointTable }
    match c.prepare localPath with
    | .error what =>
      ⟨t1, [fetch, .lock, .prepare, .unlock], some (.collaborator what)⟩
    | .ok _ =>
      match c.execute localPath with
      | .error what =>
        ⟨t1, [fetch, .lock, .prepare, .unlock, .execute], some (.collaborator what)⟩
      | .ok s =>
        ⟨{ t1 with m_view := some s.1 }, [fetch, .lock, .prepare, .unlock, .execute], none⟩

/-- The model of `TileContents::readBinary`. -/
def TileContents.readBinary (c : Collaborators P V) (t : TileContents P V) :
    Outcome (TileContents P V) :=
  let filename := "ept-data/" ++ t.m_overlap.m_key.toString ++ ".bin"
  let fetch := Event.getBinary t.m_info.endpoint.root filename
  match t.m_info.endpoint.getBinary filename with
  | .error what => ⟨t, [fetch], some (.collaborator what)⟩
  | .ok data =>
    let vpt : VectorPointTable := ⟨t.m_info.remoteLayout, data⟩
    let t1 := { t with m_table := some (.vector vpt), m_view := some (PointView.ofTable c vpt) }
    ⟨TileContents.transform c t1, [fetch], none⟩

/-- The model of `TileContents::readZstandard` as compiled with `PDAL_HAVE_ZSTD`. -/
def TileContents.readZstandard (c : Collaborators P V) (t : TileContents P V) :
    Outcome (TileContents P V) :=
  let filename := "ept-data/" ++ t.m_overlap.m_key.toString ++ ".zst"
  let fetch := Event.getBinary t.m_info.endpoint.root filename
  match t.m_info.endpoint.getBinary filename with
  | .error what => ⟨t, [fetch], some (.collaborator what)⟩
  | .ok compressed =>
    match c.decompress compressed with
    | .error what => ⟨t, [fetch, .decompress], some (.collaborator what)⟩
    | .ok data =>
      let vpt : VectorPointTable := ⟨t.m_info.remoteLayout, data⟩
      let t1 :=
        { t with m_table := some (.vector vpt), m_view := some (PointView.ofTable c vpt) }
      ⟨TileContents.transform c t1, [fetch, .decompress], none⟩

/-- The model of `TileContents::readAddon`. -/
def TileContents.readAddon (c : Collaborators P V) (addon : Addon) (expectedPts : Nat)
    (t : TileContents P V) : Outcome (TileContents P V) :=
  let key := t.m_overlap.m_key
  let np := t.m_overlap.m_count
  let entry := Event.readAddon addon.srcId
  if np = 0 then ⟨t, [entry], none⟩
  else if np ≠ expectedPts then ⟨t, [entry], some (.pdal_error "Invalid addon hierarchy")⟩
  else
    let filename := "ept-data/" ++ key.toString ++ ".bin"
    let fetch := Event.getBinary addon.endpoint.root filename
    match addon.endpoint.getBinary filename with
    | .error what => ⟨t, [entry, fetch], some (.collaborator what)⟩
    | .ok data =>
      if np * c.size addon.type ≠ data.length then
        ⟨t, [entry, fetch], some (.pdal_error "Invalid addon content length")⟩
      else
        let vpt : VectorPointTable := ⟨addon.layout, data⟩
        ⟨{ t with m_addonTables := Function.update t.m_addonTables addon.srcId (some vpt) },
          [entry, fetch], none⟩

/-- The first part of `TileContents::read`: the chain of tests on `dataType()`.  The
`Zstandard` branch exists only when `PDAL_HAVE_ZSTD` is defined. -/
def TileContents.dispatch (c : Collaborators P V) (t : TileContents P V) :
    Outcome (TileContents P V) :=
  if t.m_info.dataType = DataType.Laszip then TileContents.readLaszip c t
  else if t.m_info.dataType = DataType.Binary then TileContents.readBinary c t
  else if c.haveZstd = true ∧ t.m_info.dataType = DataType.Zstandard then
    TileContents.readZstandard c t
  else ⟨t, [], some (.ept_error "Unrecognized EPT dataType")⟩

/-- The second part of `TileContents::read`: the loop
`for (const Addon& addon : m_info->addons()) readAddon(addon, m_view->size());`,
left by the first exception. -/
def TileContents.readAddons (c : Collaborators P V) :
    List Addon → TileContents P V → Outcome (TileContents P V)
  | [], t => ⟨t, [], none⟩
  | addon :: rest, t =>
    let r := TileContents.readAddon c addon t.viewSize t
    match r.error with
    | some e => ⟨r.state, r.events, some e⟩
    | none =>
      let r2 := TileContents.readAddons c rest r.state
      ⟨r2.state, r.events ++ r2.events, r2.error⟩

/-- The model of `TileContents::read`. -/
def TileContents.read (c : Collaborators P V) (t : TileContents P V) :
    Outcome (TileContents P V) :=
  let r := TileContents.dispatch c t
  match r.error with
  | some e => ⟨r.state, r.events, some e⟩
  | none =>
    let r2 := TileContents.readAddons c r.state.m_info.addons r.state
    ⟨r2.state, r.events ++ r2.events, r2.error⟩

end TileContentsOps

/-! ## The lock of `readLaszip` in a sequence of calls -/

/-- Whether a call is one of the three steps of the guarded section of `readLaszip`:
taking the lock, the reader's `prepare`, releasing the lock. -/
def Event.isLockStep : Event → Bool
  | Event.lock => true
  | Event.prepare => true
  | Event.unlock => true
  | _ => false

/-- The lock discipline of a sequence of calls: the lock is only ever taken to be followed
at once by `prepare` and then by its release, and `prepare` and the release occur nowhere
else.  So no other call is made while the lock is held, and it is not held at the end. -/
def lockScoped : List Event → Bool
  | [] => true
  | Event.lock :: Event.prepare :: Event.unlock :: rest => lockScoped rest
  | Event.lock :: _ => false
  | Event.prepare :: _ => false
  | Event.unlock :: _ => false
  | _ :: rest => lockScoped rest

/-! ## `Schema` -/

/-- A `Dimension`: its id (`getId()`) and the rest of its description. -/
structure Dimension where
  m_id : Dimension.Id
  m_name : String
  deriving DecidableEq, Repr

/-- The model of `Dimension::getId`. -/
def Dimension.getId (d : Dimension) : Dimension.Id := d.m_id

/-- A `std::map<Dimension::Id, std::size_t>`, as a list of pairs with distinct keys. -/
abbrev DimensionMap := List (Dimension.Id × Nat)

/-- The model of `std::map::find`: the value stored under the key, if any. -/
def DimensionMap.find (m : DimensionMap) (id : Dimension.Id) : Option Nat :=
  match m with
  | [] => none
  | (k, v) :: rest => if k = id then some v else DimensionMap.find rest id

/-- The model of `std::map::insert`: nothing happens when the key is already present. -/
def DimensionMap.insert (m : DimensionMap) (p : Dimension.Id × Nat) : DimensionMap :=
  match DimensionMap.find m p.1 with
  | some _ => m
  | none => m ++ [p]

/-- The state of a `Schema`. -/
structure Schema where
  m_dimensions : List Dimension
  m_dimensions_map : DimensionMap
  deriving DecidableEq, Repr

/-- The model of the constructor `Schema::Schema()`. -/
def Schema.empty : Schema := ⟨[], []⟩

/-- The model of `Schema::appendDimension`. -/
def Schema.appendDimension (s : Schema) (dim : Dimension) : Schema :=
  let m_dimensions := s.m_dimensions ++ [dim]
  let p : Dimension.Id × Nat := (dim.getId, m_dimensions.length - 1)
  ⟨m_dimensions, DimensionMap.insert s.m_dimensions_map p⟩

/-- The model of `Schema::getDimension(std::size_t)`; an index past the end has no
defined result. -/
def Schema.getDimension (s : Schema) (index : Nat) : Option Dimension :=
  s.m_dimensions[index]?

/-- The model of `Schema::getDimensionIndex(const Dimension::Id&)`; the stored position is
returned as an `int`. -/
def Schema.getDimensionIndex (s : Schema) (id : Dimension.Id) : Int :=
  match DimensionMap.find s.m_dimensions_map id with
  | none => -1
  | some second => (second : Int)

/-- The model of `Schema::hasDimension`. -/
def Schema.hasDimension (s : Schema) (field : Dimension.Id) : Bool :=
  let t := s.getDimensionIndex field
  if t = -1 then false else true

/-- The schema reached from the empty one by appending the dimensions of a list in order. -/
def Schema.ofAppends (dims : List Dimension) : Schema :=
  dims.foldl Schema.appendDimension Schema.empty

/-! ## Sample inputs -/

namespace Sample

/-- A sample point: the value of each field. -/
abbrev Pt := Dimension.Id → Int

/-- A sample endpoint named `root` that delivers `data` for every object name. -/
def endpoint (root : String) (data : Bytes) : Endpoint :=
  ⟨root, fun name => .ok ("/tmp/" ++ name), fun _ => .ok data⟩

/-- A sample endpoint whose fetches all fail. -/
def deadEndpoint (root : String) : Endpoint :=
  ⟨root, fun _ => .error "not found", fun _ => .error "not found"⟩

/-- Sample collaborators: every field is four bytes wide, a point of a table holds in every
field the byte at the point's index, the LAS reader yields one view of one point, and the
decompressor returns its input. -/
def collab (haveZstd : Bool) : Collaborators Pt Int where
  haveZstd := haveZstd
  size := fun _ => 4
  getFieldAs := fun p d => p d
  setField := fun p d v => Function.update p d v
  point := fun vpt i => fun _ => (vpt.buffer.getD i 0 : Nat)
  prepare := fun _ => .ok ()
  execute := fun _ => .ok ([fun _ => 7], [])
  decompress := fun b => .ok b

/-- Sample metadata: scale 2 and offset 1 on X, 3 and 10 on Y, 5 and 100 on Z. -/
def info (dataType : DataType) (main : Endpoint) (addons : List Addon) : EptInfo Int where
  dataType := dataType
  endpoint := main
  remoteLayout := ⟨1⟩
  addons := addons
  dimType := fun d =>
    match d with
    | .X => ⟨⟨⟨2⟩, ⟨1⟩⟩⟩
    | .Y => ⟨⟨⟨3⟩, ⟨10⟩⟩⟩
    | .Z => ⟨⟨⟨5⟩, ⟨100⟩⟩⟩
    | .other _ => ⟨⟨⟨1⟩, ⟨0⟩⟩⟩

/-- A sample tile with key `0-0-0-0` that has not been read yet. -/
def tile (dataType : DataType) (main : Endpoint) (addons : List Addon) (count : Nat) :
    TileContents Pt Int where
  m_info := info dataType main addons
  m_overlap := ⟨⟨"0-0-0-0"⟩, count⟩
  m_table := none
  m_view := none
  m_addonTables := fun _ => none

/-- A sample addon with source id `other n` whose endpoint, named `root`, delivers `data`. -/
def addon (root : String) (n : Nat) (data : Bytes) : Addon :=
  ⟨.other n, 0, ⟨4⟩, endpoint root data⟩

/-- Sample collaborators over the rationals, with points that are functions from the
dimensions to their values. -/
def collabQ : Collaborators (Dimension.Id → ℚ) ℚ where
  haveZstd := true
  size := fun _ => 4
  getFieldAs := fun p d => p d
  setField := fun p d v => Function.update p d v
  point := fun vpt i => fun _ => (vpt.buffer.getD i 0 : Nat)
  prepare := fun _ => .ok ()
  execute := fun _ => .ok ([fun _ => 7], [])
  decompress := fun b => .ok b

/-- A sample tile over the rationals: every dimension has scale 1/100 and offset 5, and the
view holds one point whose fields all store 734. -/
def tileQ : TileContents (Dimension.Id → ℚ) ℚ where
  m_info := ⟨DataType.Binary, endpoint "main" [], ⟨1⟩, [], fun _ => ⟨⟨⟨1 / 100⟩, ⟨5⟩⟩⟩⟩
  m_overlap := ⟨⟨"0-0-0-0"⟩, 1⟩
  m_table := none
  m_view := some [fun _ => 734]
  m_addonTables := fun _ => none

end Sample

/-! ## Theorems -/

section TileContentsThms

variable {P V : Type}

/-- All `readAddon` assigns is `m_addonTables`. -/
theorem readAddon_frame (c : Collaborators P V) (addon : Addon) (e : Nat)
    (t : TileContents P V) :
    (TileContents.readAddon c addon e t).state.m_info = t.m_info ∧
    (TileContents.readAddon c addon e t).state.m_overlap = t.m_overlap ∧
    (TileContents.readAddon c addon e t).state.m_table = t.m_table ∧
    (TileContents.readAddon c addon e t).state.m_view = t.m_view := by
  unfold TileContents.readAddon
  simp only
  split
  · exact ⟨rfl, rfl, rfl, rfl⟩
  · split
    · exact ⟨rfl, rfl, rfl, rfl⟩
    · split
      · exact ⟨rfl, rfl, rfl, rfl⟩
      · split <;> exact ⟨rfl, rfl, rfl, rfl⟩

/-- All the addon loop assigns is `m_addonTables`. -/
theorem readAddons_frame (c : Collaborators P V) (addons : List Addon) :
    ∀ t : TileContents P V,
      (TileContents.readAddons c addons t).state.m_info = t.m_info ∧
      (TileContents.readAddons c addons t).state.m_overlap = t.m_overlap ∧
      (TileContents.readAddons c addons t).state.m_table = t.m_table ∧
      (TileContents.readAddons c addons t).state.m_view = t.m_view := by
  induction addons with
  | nil => intro t; exact ⟨rfl, rfl, rfl, rfl⟩
  | cons a rest ih =>
    intro t
    have h := readAddon_frame c a t.viewSize t
    unfold TileContents.readAddons
    simp only
    split
    · exact h
    · have h2 := ih (TileContents.readAddon c a t.viewSize t).state
      exact ⟨h2.1.trans h.1, h2.2.1.trans h.2.1, h2.2.2.1.trans h.2.2.1,
        h2.2.2.2.trans h.2.2.2⟩

/-- The three ways `readAddon` ends once the overlap count is non-zero and the addon's
endpoint has delivered `data`. -/
theorem readAddon_of_fetch (c : Collaborators P V) (addon : Addon) (e : Nat)
    (t : TileContents P V) (data : Bytes)
    (hnp : t.m_overlap.m_count ≠ 0)
    (hfetch : addon.endpoint.getBinary ("ept-data/" ++ t.m_overlap.m_key.toString ++ ".bin")
      = .ok data) :
    TileContents.readAddon c addon e t =
      if t.m_overlap.m_count ≠ e then
        ⟨t, [Event.readAddon addon.srcId], some (Exn.pdal_error "Invalid addon hierarchy")⟩
      else if t.m_overlap.m_count * c.size addon.type ≠ data.length then
        ⟨t, [Event.readAddon addon.srcId, Event.getBinary addon.endpoint.root
            ("ept-data/" ++ t.m_overlap.m_key.toString ++ ".bin")],
          some (Exn.pdal_error "Invalid addon content length")⟩
      else
        ⟨{ t with m_addonTables :=
            Function.update t.m_addonTables addon.srcId (some ⟨addon.layout, data⟩) },
          [Event.readAddon addon.srcId, Event.getBinary addon.endpoint.root
            ("ept-data/" ++ t.m_overlap.m_key.toString ++ ".bin")], none⟩ := by
  unfold TileContents.readAddon
  simp only [hfetch, if_neg hnp]

/-- A payload of 396 bytes for 100 points of a four-byte field is rejected. -/
theorem readAddon_short_payload :
    (TileContents.readAddon (Sample.collab true) (Sample.addon "addon" 1 (List.replicate 396 0)) 100
      (Sample.tile DataType.Binary (Sample.endpoint "main" []) [] 100)).error
      = some (Exn.pdal_error "Invalid addon content length") := by
  rw [readAddon_of_fetch (Sample.collab true) (Sample.addon "addon" 1 (List.replicate 396 0)) 100
    (Sample.tile DataType.Binary (Sample.endpoint "main" []) [] 100) (List.replicate 396 0)
    (by decide) rfl, if_neg (by decide), if_pos (by rw [List.length_replicate]; decide)]

/-- An overlap count of 50 against 100 decoded points is rejected. -/
theorem readAddon_count_mismatch :
    (TileContents.readAddon (Sample.collab true) (Sample.addon "addon" 1 (List.replicate 200 0)) 100
      (Sample.tile DataType.Binary (Sample.endpoint "main" []) [] 50)).error
      = some (Exn.pdal_error "Invalid addon hierarchy") := by
  simp [TileContents.readAddon, Sample.tile]

/-- No decode path assigns the metadata, the overlap or the addon tables. -/
theorem dispatch_frame [Mul V] [Add V] (c : Collaborators P V) (t : TileContents P V) :
    (TileContents.dispatch c t).state.m_info = t.m_info ∧
    (TileContents.dispatch c t).state.m_overlap = t.m_overlap ∧
    (TileContents.dispatch c t).state.m_addonTables = t.m_addonTables := by
  unfold TileContents.dispatch
  split
  · unfold TileContents.readLaszip
    simp only
    split
    · exact ⟨rfl, rfl, rfl⟩
    · split
      · exact ⟨rfl, rfl, rfl⟩
      · split <;> exact ⟨rfl, rfl, rfl⟩
  · split
    · unfold TileContents.readBinary
      simp only
      split <;> exact ⟨rfl, rfl, rfl⟩
    · split
      · unfold TileContents.readZstandard
        simp only
        split
        · exact ⟨rfl, rfl, rfl⟩
        · split <;> exact ⟨rfl, rfl, rfl⟩
      · exact ⟨rfl, rfl, rfl⟩

/-- When `read` returns, so did the decode path and the addon loop; the final state is that
of the loop. -/
theorem read_ok [Mul V] [Add V] (c : Collaborators P V) (t : TileContents P V)
    (hok : (TileContents.read c t).error = none) :
    (TileContents.dispatch c t).error = none ∧
    (TileContents.readAddons c t.m_info.addons (TileContents.dispatch c t).state).error = none ∧
    (TileContents.read c t).state
      = (TileContents.readAddons c t.m_info.addons (TileContents.dispatch c t).state).state := by
  have hf := dispatch_frame c t
  cases hd : (TileContents.dispatch c t).error with
  | some e => simp [TileContents.read, hd] at hok
  | none =>
    have h1 : TileContents.read c t =
        ⟨(TileContents.readAddons c t.m_info.addons (TileContents.dispatch c t).state).state,
          (TileContents.dispatch c t).events ++
            (TileContents.readAddons c t.m_info.addons (TileContents.dispatch c t).state).events,
          (TileContents.readAddons c t.m_info.addons (TileContents.dispatch c t).state).error⟩ := by
      simp [TileContents.read, hd, hf.1]
    rw [h1] at hok
    rw [h1]
    exact ⟨rfl, hok, rfl⟩

/-- When `readAddon` returns on a non-zero overlap count, the count is the expected one. -/
theorem readAddon_ok_count (c : Collaborators P V) (addon : Addon) (e : Nat)
    (t : TileContents P V) (hnp : t.m_overlap.m_count ≠ 0)
    (hok : (TileContents.readAddon c addon e t).error = none) :
    t.m_overlap.m_count = e := by
  unfold TileContents.readAddon at hok
  simp only [if_neg hnp] at hok
  by_contra hne
  simp [hne] at hok

/-- The counterexample to C3: a Binary tile with overlap count 5, no addon and a payload of
two points.  `read` returns and the view holds two points.  The same payload under an
overlap count of 6 gives the same view: the count plays no part. -/
theorem read_count_unchecked :
    (Sample.tile DataType.Binary (Sample.endpoint "main" [5, 6]) [] 5).m_overlap.m_count = 5 ∧
    (TileContents.read (Sample.collab true)
      (Sample.tile DataType.Binary (Sample.endpoint "main" [5, 6]) [] 5)).error = none ∧
    (TileContents.read (Sample.collab true)
      (Sample.tile DataType.Binary (Sample.endpoint "main" [5, 6]) [] 5)).state.viewSize
        = 2 ∧
    (TileContents.read (Sample.collab true)
      (Sample.tile DataType.Binary (Sample.endpoint "main" [5, 6]) [] 6)).error = none ∧
    (TileContents.read (Sample.collab true)
      (Sample.tile DataType.Binary (Sample.endpoint "main" [5, 6]) [] 6)).state.viewSize
        = 2 := by
  refine ⟨rfl, rfl, rfl, rfl, rfl⟩

/-- C3, amended: when `read` returns on a tile with a non-zero overlap count and at least one
addon, the number of points of the view equals the overlap count. -/
theorem read_count_checked [Mul V] [Add V] (c : Collaborators P V) (t : TileContents P V)
    (hok : (TileContents.read c t).error = none)
    (hnp : t.m_overlap.m_count ≠ 0)
    (haddons : t.m_info.addons ≠ []) :
    (TileContents.read c t).state.viewSize = t.m_overlap.m_count := by
  obtain ⟨_, hloop, hstate⟩ := read_ok c t hok
  have hf := dispatch_frame c t
  have hview : (TileContents.read c t).state.m_view = (TileContents.dispatch c t).state.m_view := by
    rw [hstate]; exact (readAddons_frame c _ _).2.2.2
  have hsize : (TileContents.read c t).state.viewSize
      = (TileContents.dispatch c t).state.viewSize := by
    unfold TileContents.viewSize; rw [hview]
  rw [hsize]
  cases hl : t.m_info.addons with
  | nil => exact absurd hl haddons
  | cons a rest =>
    rw [hl] at hloop
    unfold TileContents.readAddons at hloop
    simp only at hloop
    have hnp2 : (TileContents.dispatch c t).state.m_overlap.m_count ≠ 0 := by
      rw [hf.2.1]; exact hnp
    cases ha : (TileContents.readAddon c a (TileContents.dispatch c t).state.viewSize
        (TileContents.dispatch c t).state).error with
    | some e => rw [ha] at hloop; simp at hloop
    | none =>
      have := readAddon_ok_count c a _ _ hnp2 ha
      rw [← this, hf.2.1]

/-- The witness of the amended C3: a Binary tile with overlap count 2, a payload of two
points and one addon of 2 × 4 bytes. -/
theorem read_count_checked_witness :
    (TileContents.read (Sample.collab true)
      (Sample.tile DataType.Binary (Sample.endpoint "main" [5, 6])
        [Sample.addon "addon" 1 [1, 2, 3, 4, 5, 6, 7, 8]] 2)).state.viewSize = 2 :=
  read_count_checked (Sample.collab true)
    (Sample.tile DataType.Binary (Sample.endpoint "main" [5, 6])
      [Sample.addon "addon" 1 [1, 2, 3, 4, 5, 6, 7, 8]] 2) rfl (by decide)
    (by simp [Sample.tile, Sample.info])

/-- An exception leaving `readAddon` is never an `ept_error`. -/
theorem readAddon_not_ept (c : Collaborators P V) (addon : Addon) (e : Nat)
    (t : TileContents P V) (what : String) :
    (TileContents.readAddon c addon e t).error ≠ some (Exn.ept_error what) := by
  unfold TileContents.readAddon
  simp only
  split
  · simp
  · split
    · simp
    · split
      · simp
      · split <;> simp

/-- An exception leaving the addon loop is never an `ept_error`. -/
theorem readAddons_not_ept (c : Collaborators P V) (addons : List Addon) (what : String) :
    ∀ t : TileContents P V,
      (TileContents.readAddons c addons t).error ≠ some (Exn.ept_error what) := by
  induction addons with
  | nil => intro t; simp [TileContents.readAddons]
  | cons a rest ih =>
    intro t
    unfold TileContents.readAddons
    simp only
    split
    · next e he =>
      intro h
      have h2 : (TileContents.readAddon c a t.viewSize t).error = some (Exn.ept_error what) := by
        rw [he]; exact h
      exact readAddon_not_ept c a _ t what h2
    · exact ih _

/-- An exception leaving `readLaszip` is never an `ept_error`. -/
theorem readLaszip_not_ept (c : Collaborators P V) (t : TileContents P V) (what : String) :
    (TileContents.readLaszip c t).error ≠ some (Exn.ept_error what) := by
  unfold TileContents.readLaszip
  simp only
  split
  · simp
  · split
    · simp
    · split <;> simp

/-- An exception leaving `readBinary` is never an `ept_error`. -/
theorem readBinary_not_ept [Mul V] [Add V] (c : Collaborators P V) (t : TileContents P V)
    (what : String) :
    (TileContents.readBinary c t).error ≠ some (Exn.ept_error what) := by
  unfold TileContents.readBinary
  simp only
  split <;> simp

/-- An exception leaving `readZstandard` is never an `ept_error`. -/
theorem readZstandard_not_ept [Mul V] [Add V] (c : Collaborators P V) (t : TileContents P V)
    (what : String) :
    (TileContents.readZstandard c t).error ≠ some (Exn.ept_error what) := by
  unfold TileContents.readZstandard
  simp only
  split
  · simp
  · split <;> simp

/-- When the decode path does not throw an `ept_error`, neither does `read`. -/
theorem read_not_ept [Mul V] [Add V] (c : Collaborators P V) (t : TileContents P V)
    (what : String)
    (h : (TileContents.dispatch c t).error ≠ some (Exn.ept_error what)) :
    (TileContents.read c t).error ≠ some (Exn.ept_error what) := by
  unfold TileContents.read
  simp only
  split
  · next e he => rw [he] at h; exact h
  · exact readAddons_not_ept c _ what _

/-- When the decode path throws, `read` ends there: same state, same calls, same exception. -/
theorem read_of_dispatch_error [Mul V] [Add V] (c : Collaborators P V) (t : TileContents P V)
    (e : Exn) (h : (TileContents.dispatch c t).error = some e) :
    TileContents.read c t
      = ⟨(TileContents.dispatch c t).state, (TileContents.dispatch c t).events, some e⟩ := by
  unfold TileContents.read
  simp only [h]

/-- The counterexample to C5: in a build without `PDAL_HAVE_ZSTD`, a tile of data type
Zstandard fails with the unrecognized-encoding error, and no call is made. -/
theorem read_zstandard_without_zstd :
    (Sample.tile DataType.Zstandard (Sample.endpoint "main" [5, 6]) [] 2).m_info.dataType
      = DataType.Zstandard ∧
    (TileContents.read (Sample.collab false)
      (Sample.tile DataType.Zstandard (Sample.endpoint "main" [5, 6]) [] 2)).error
        = some (Exn.ept_error "Unrecognized EPT dataType") ∧
    (TileContents.read (Sample.collab false)
      (Sample.tile DataType.Zstandard (Sample.endpoint "main" [5, 6]) [] 2)).events = [] := by
  refine ⟨rfl, rfl, rfl⟩

/-- C5, amended: for a data type other than Laszip, Binary and Zstandard, `read` throws
"Unrecognized EPT dataType" with no call made, no addon entered and the state unchanged; a
Zstandard tile in a build without `PDAL_HAVE_ZSTD` ends the same way.  For Laszip, for Binary,
and for Zstandard in a build with `PDAL_HAVE_ZSTD`, the dispatch runs that kind's decode path
and `read` never throws the unrecognized-encoding error. -/
theorem read_dispatch [Mul V] [Add V] (c : Collaborators P V) (t : TileContents P V) :
    match t.m_info.dataType with
    | DataType.Laszip =>
      TileContents.dispatch c t = TileContents.readLaszip c t ∧
      (TileContents.read c t).error ≠ some (Exn.ept_error "Unrecognized EPT dataType")
    | DataType.Binary =>
      TileContents.dispatch c t = TileContents.readBinary c t ∧
      (TileContents.read c t).error ≠ some (Exn.ept_error "Unrecognized EPT dataType")
    | DataType.Zstandard =>
      if c.haveZstd = true then
        TileContents.dispatch c t = TileContents.readZstandard c t ∧
        (TileContents.read c t).error ≠ some (Exn.ept_error "Unrecognized EPT dataType")
      else
        TileContents.read c t = ⟨t, [], some (Exn.ept_error "Unrecognized EPT dataType")⟩
    | DataType.Other _ =>
      TileContents.read c t = ⟨t, [], some (Exn.ept_error "Unrecognized EPT dataType")⟩ := by
  cases hdt : t.m_info.dataType with
  | Laszip =>
    have hd : TileContents.dispatch c t = TileContents.readLaszip c t := by
      simp [TileContents.dispatch, hdt]
    exact ⟨hd, read_not_ept c t _ (by rw [hd]; exact readLaszip_not_ept c t _)⟩
  | Binary =>
    have hd : TileContents.dispatch c t = TileContents.readBinary c t := by
      simp [TileContents.dispatch, hdt]
    exact ⟨hd, read_not_ept c t _ (by rw [hd]; exact readBinary_not_ept c t _)⟩
  | Zstandard =>
    by_cases hz : c.haveZstd = true
    · have hd : TileContents.dispatch c t = TileContents.readZstandard c t := by
        simp [TileContents.dispatch, hdt, hz]
      simp only [hz, if_true]
      exact ⟨hd, read_not_ept c t _ (by rw [hd]; exact readZstandard_not_ept c t _)⟩
    · have hd : TileContents.dispatch c t
          = ⟨t, [], some (Exn.ept_error "Unrecognized EPT dataType")⟩ := by
        simp [TileContents.dispatch, hdt, hz]
      have hr := read_of_dispatch_error c t _ (by rw [hd])
      rw [hd] at hr
      simp only [hz]
      exact hr
  | Other tag =>
    have hd : TileContents.dispatch c t
        = ⟨t, [], some (Exn.ept_error "Unrecognized EPT dataType")⟩ := by
      simp [TileContents.dispatch, hdt]
    simp only
    rw [read_of_dispatch_error c t _ (by rw [hd]), hd]

/-- A sequence of calls without a step of the guarded section respects the lock
discipline. -/
theorem lockScoped_of_no_lockStep (l : List Event)
    (h : ∀ e ∈ l, e.isLockStep = false) : lockScoped l = true := by
  induction l with
  | nil => rfl
  | cons e rest ih =>
    have he := h e (List.mem_cons_self _ _)
    have hr := ih (fun x hx => h x (List.mem_cons_of_mem _ hx))
    cases e <;> simp_all [lockScoped, Event.isLockStep]

/-- The call `readAddon` makes no step of the guarded section. -/
theorem readAddon_no_lockStep (c : Collaborators P V) (addon : Addon) (n : Nat)
    (t : TileContents P V) :
    ∀ e ∈ (TileContents.readAddon c addon n t).events, e.isLockStep = false := by
  unfold TileContents.readAddon
  simp only
  split
  · simp [Event.isLockStep]
  · split
    · simp [Event.isLockStep]
    · split
      · simp [Event.isLockStep]
      · split <;> simp [Event.isLockStep]

/-- The addon loop makes no step of the guarded section. -/
theorem readAddons_no_lockStep (c : Collaborators P V) (addons : List Addon) :
    ∀ t : TileContents P V,
      ∀ e ∈ (TileContents.readAddons c addons t).events, e.isLockStep = false := by
  induction addons with
  | nil => intro t e he; simp [TileContents.readAddons] at he
  | cons a rest ih =>
    intro t e he
    have ha := readAddon_no_lockStep c a t.viewSize t
    unfold TileContents.readAddons at he
    simp only at he
    split at he
    · exact ha e he
    · rcases List.mem_append.mp he with h | h
      · exact ha e h
      · exact ih _ e h

/-- The calls of `read` are those of the decode path followed by calls of the addon loop,
none of which is a step of the guarded section. -/
theorem read_events_split [Mul V] [Add V] (c : Collaborators P V) (t : TileContents P V) :
    ∃ tail, (TileContents.read c t).events = (TileContents.dispatch c t).events ++ tail ∧
      (∀ e ∈ tail, e.isLockStep = false) ∧
      ((TileContents.dispatch c t).error ≠ none → tail = []) := by
  unfold TileContents.read
  simp only
  split
  · next x hx => exact ⟨[], by simp, by simp, fun _ => rfl⟩
  · next hx =>
    exact ⟨_, rfl, readAddons_no_lockStep c _ _, fun h => absurd hx h⟩

/-- The calls of `readBinary` contain no step of the guarded section. -/
theorem readBinary_no_lockStep [Mul V] [Add V] (c : Collaborators P V) (t : TileContents P V) :
    ∀ e ∈ (TileContents.readBinary c t).events, e.isLockStep = false := by
  unfold TileContents.readBinary
  simp only
  split <;> simp [Event.isLockStep]

/-- The calls of `readZstandard` contain no step of the guarded section. -/
theorem readZstandard_no_lockStep [Mul V] [Add V] (c : Collaborators P V)
    (t : TileContents P V) :
    ∀ e ∈ (TileContents.readZstandard c t).events, e.isLockStep = false := by
  unfold TileContents.readZstandard
  simp only
  split
  · simp [Event.isLockStep]
  · split <;> simp [Event.isLockStep]

/-- The calls of a decode path other than `readLaszip` contain no step of the guarded
section. -/
theorem dispatch_no_lockStep [Mul V] [Add V] (c : Collaborators P V) (t : TileContents P V)
    (hl : t.m_info.dataType ≠ DataType.Laszip) :
    ∀ e ∈ (TileContents.dispatch c t).events, e.isLockStep = false := by
  unfold TileContents.dispatch
  rw [if_neg hl]
  split
  · exact readBinary_no_lockStep c t
  · split
    · exact readZstandard_no_lockStep c t
    · simp

/-- The calls of `read` on a sample Laszip tile of one point with one addon: the fetch, the
guarded `prepare`, `execute`, then the addon. -/
theorem read_laszip_calls :
    (TileContents.read (Sample.collab true)
      (Sample.tile DataType.Laszip (Sample.endpoint "main" [])
        [Sample.addon "addon" 1 [1, 2, 3, 4]] 1)).events
      = [Event.getLocalHandle "main" "ept-data/0-0-0-0.laz", Event.lock, Event.prepare,
          Event.unlock, Event.execute, Event.readAddon (Dimension.Id.other 1),
          Event.getBinary "addon" "ept-data/0-0-0-0.bin"] ∧
    (TileContents.read (Sample.collab true)
      (Sample.tile DataType.Laszip (Sample.endpoint "main" [])
        [Sample.addon "addon" 1 [1, 2, 3, 4]] 1)).error = none := by
  refine ⟨rfl, rfl⟩

/-- The calls of `read` on a sample Laszip tile whose endpoint fails: the fetch alone. -/
theorem read_laszip_fetch_failure :
    (TileContents.read (Sample.collab true)
      (Sample.tile DataType.Laszip (Sample.deadEndpoint "main")
        [Sample.addon "addon" 1 [1, 2, 3, 4]] 1)).events
      = [Event.getLocalHandle "main" "ept-data/0-0-0-0.laz"] ∧
    (TileContents.read (Sample.collab true)
      (Sample.tile DataType.Laszip (Sample.deadEndpoint "main")
        [Sample.addon "addon" 1 [1, 2, 3, 4]] 1)).error
      = some (Exn.collaborator "not found") := by
  refine ⟨rfl, rfl⟩

/-- C9: in the calls of one `read`, the lock discipline holds: the lock is only taken to be
followed at once by `prepare` and then released, so it is held during no other call.  On a
Laszip tile whose fetch succeeds the calls are the fetch, then lock, `prepare`, unlock, then
calls none of which is a step of the guarded section; when `prepare` throws, the release is
the last call, otherwise `execute` follows it.  When the fetch fails it is the only call.
On every other data type the lock is never taken. -/
theorem read_lock_scope [Mul V] [Add V] (c : Collaborators P V) (t : TileContents P V) :
    lockScoped (TileContents.read c t).events = true ∧
    match t.m_info.dataType with
    | DataType.Laszip =>
      match t.m_info.endpoint.getLocalHandle
          ("ept-data/" ++ t.m_overlap.m_key.toString ++ ".laz") with
      | .error _ =>
        (TileContents.read c t).events = [Event.getLocalHandle t.m_info.endpoint.root
          ("ept-data/" ++ t.m_overlap.m_key.toString ++ ".laz")]
      | .ok localPath =>
        ∃ rest, (TileContents.read c t).events
            = Event.getLocalHandle t.m_info.endpoint.root
                ("ept-data/" ++ t.m_overlap.m_key.toString ++ ".laz")
              :: Event.lock :: Event.prepare :: Event.unlock :: rest ∧
          (∀ e ∈ rest, e.isLockStep = false) ∧
          match c.prepare localPath with
          | .error _ => rest = []
          | .ok _ => rest.head? = some Event.execute
    | _ => ∀ e ∈ (TileContents.read c t).events, e.isLockStep = false := by
  obtain ⟨tail, hev, htail, hstop⟩ := read_events_split c t
  by_cases hl : t.m_info.dataType = DataType.Laszip
  · have hd : TileContents.dispatch c t = TileContents.readLaszip c t := by
      simp [TileContents.dispatch, hl]
    rw [hd] at hev hstop
    rw [hl]
    simp only
    unfold TileContents.readLaszip at hev hstop
    cases hh : t.m_info.endpoint.getLocalHandle
        ("ept-data/" ++ t.m_overlap.m_key.toString ++ ".laz") with
    | error w =>
      simp only [hh] at hev hstop
      have ht : tail = [] := hstop (by simp)
      subst ht
      rw [hev]
      exact ⟨rfl, rfl⟩
    | ok path =>
      simp only [hh] at hev hstop
      cases hp : c.prepare path with
      | error w =>
        simp only [hp] at hev hstop
        have ht : tail = [] := hstop (by simp)
        subst ht
        rw [hev]
        exact ⟨rfl, [], rfl, by simp, by rw [hp]⟩
      | ok u =>
        simp only [hp] at hev hstop
        cases he : c.execute path with
        | error w =>
          simp only [he] at hev hstop
          have ht : tail = [] := hstop (by simp)
          subst ht
          rw [hev]
          exact ⟨rfl, [Event.execute], rfl, by simp [Event.isLockStep], by rw [hp]; rfl⟩
        | ok views =>
          simp only [he] at hev
          rw [hev]
          have hrest : ∀ e ∈ Event.execute :: tail, e.isLockStep = false := by
            intro e hmem
            rcases List.mem_cons.mp hmem with h | h
            · subst h; rfl
            · exact htail e h
          refine ⟨?_, Event.execute :: tail, rfl, hrest, by rw [hp]; rfl⟩
          show lockScoped (Event.execute :: tail) = true
          exact lockScoped_of_no_lockStep _ hrest
  · have hall : ∀ e ∈ (TileContents.read c t).events, e.isLockStep = false := by
      rw [hev]
      intro e hmem
      rcases List.mem_append.mp hmem with h | h
      · exact dispatch_no_lockStep c t hl e h
      · exact htail e h
    refine ⟨lockScoped_of_no_lockStep _ hall, ?_⟩
    cases hdt : t.m_info.dataType with
    | Laszip => exact absurd hdt hl
    | Binary => exact hall
    | Zstandard => exact hall
    | Other tag => exact hall

/-- The view after `transform`: each point of the view before it, with X, Y and Z set in
turn. -/
theorem transform_view [Mul V] [Add V] (c : Collaborators P V) (t : TileContents P V)
    (view : List P) (hview : t.m_view = some view) :
    (TileContents.transform c t).m_view = some (view.map (fun p =>
      c.setField
        (c.setField
          (c.setField p Dimension.Id.X
            (c.getFieldAs p Dimension.Id.X * (t.m_info.dimType Dimension.Id.X).m_xform.m_scale.m_val
              + (t.m_info.dimType Dimension.Id.X).m_xform.m_offset.m_val))
          Dimension.Id.Y
          (c.getFieldAs
              (c.setField p Dimension.Id.X
                (c.getFieldAs p Dimension.Id.X
                    * (t.m_info.dimType Dimension.Id.X).m_xform.m_scale.m_val
                  + (t.m_info.dimType Dimension.Id.X).m_xform.m_offset.m_val))
              Dimension.Id.Y * (t.m_info.dimType Dimension.Id.Y).m_xform.m_scale.m_val
            + (t.m_info.dimType Dimension.Id.Y).m_xform.m_offset.m_val))
        Dimension.Id.Z
        (c.getFieldAs
            (c.setField
              (c.setField p Dimension.Id.X
                (c.getFieldAs p Dimension.Id.X
                    * (t.m_info.dimType Dimension.Id.X).m_xform.m_scale.m_val
                  + (t.m_info.dimType Dimension.Id.X).m_xform.m_offset.m_val))
              Dimension.Id.Y
              (c.getFieldAs
                  (c.setField p Dimension.Id.X
                    (c.getFieldAs p Dimension.Id.X
                        * (t.m_info.dimType Dimension.Id.X).m_xform.m_scale.m_val
                      + (t.m_info.dimType Dimension.Id.X).m_xform.m_offset.m_val))
                  Dimension.Id.Y * (t.m_info.dimType Dimension.Id.Y).m_xform.m_scale.m_val
                + (t.m_info.dimType Dimension.Id.Y).m_xform.m_offset.m_val))
            Dimension.Id.Z * (t.m_info.dimType Dimension.Id.Z).m_xform.m_scale.m_val
          + (t.m_info.dimType Dimension.Id.Z).m_xform.m_offset.m_val))) := by
  unfold TileContents.transform
  simp only [hview, Option.map_some']

/-- The fields of a point of the view after `transform`, read with `getFieldAs`, when a field
written with `setField` reads back as written and writing one field leaves the others as
they were: X, Y and Z are the former value times the scale plus the offset of their own
dimension, and every other field is as before. -/
theorem transform_fields [Mul V] [Add V] (c : Collaborators P V) (t : TileContents P V)
    (hsame : ∀ (p : P) (d : Dimension.Id) (v : V), c.getFieldAs (c.setField p d v) d = v)
    (hother : ∀ (p : P) (d d2 : Dimension.Id) (v : V), d2 ≠ d →
      c.getFieldAs (c.setField p d v) d2 = c.getFieldAs p d2)
    (view : List P) (hview : t.m_view = some view) :
    ∃ view2, (TileContents.transform c t).m_view = some view2 ∧
      view2.length = view.length ∧
      ∀ (i : Nat) (p q : P), view[i]? = some p → view2[i]? = some q →
        (∀ d, d = Dimension.Id.X ∨ d = Dimension.Id.Y ∨ d = Dimension.Id.Z →
          c.getFieldAs q d = c.getFieldAs p d * (t.m_info.dimType d).m_xform.m_scale.m_val
            + (t.m_info.dimType d).m_xform.m_offset.m_val) ∧
        (∀ d, d ≠ Dimension.Id.X → d ≠ Dimension.Id.Y → d ≠ Dimension.Id.Z →
          c.getFieldAs q d = c.getFieldAs p d) := by
  refine ⟨_, transform_view c t view hview, by simp, ?_⟩
  intro i p q hp hq
  rw [List.getElem?_map, hp] at hq
  simp only [Option.map_some', Option.some.injEq] at hq
  subst hq
  have hXY : Dimension.Id.X ≠ Dimension.Id.Y := by decide
  have hXZ : Dimension.Id.X ≠ Dimension.Id.Z := by decide
  have hYZ : Dimension.Id.Y ≠ Dimension.Id.Z := by decide
  refine ⟨?_, ?_⟩
  · intro d hd
    rcases hd with h | h | h
    · subst h
      rw [hother _ _ _ _ hXZ, hother _ _ _ _ hXY, hsame]
    · subst h
      rw [hother _ _ _ _ hYZ, hsame, hother _ _ _ _ hXY.symm]
    · subst h
      rw [hsame, hother _ _ _ _ hYZ.symm, hother _ _ _ _ hXZ.symm]
  · intro d h1 h2 h3
    rw [hother _ _ _ _ h3, hother _ _ _ _ h2, hother _ _ _ _ h1]

/-- Multiplying the nearest integer to `(v - offset) / scale` by the scale and adding the
offset gives `v` to within the scale. -/
theorem scale_round_offset {K : Type} [LinearOrderedField K] [FloorRing K]
    (scale offset v : K) (hscale : 0 < scale) :
    |(round ((v - offset) / scale) : K) * scale + offset - v| ≤ scale := by
  have h := abs_sub_round ((v - offset) / scale)
  have hne : scale ≠ 0 := ne_of_gt hscale
  have heq : (round ((v - offset) / scale) : K) * scale + offset - v
      = -(((v - offset) / scale - (round ((v - offset) / scale) : K)) * scale) := by
    field_simp
    ring
  rw [heq, abs_neg, abs_mul, abs_of_pos hscale]
  calc |(v - offset) / scale - (round ((v - offset) / scale) : K)| * scale
      ≤ 1 / 2 * scale := mul_le_mul_of_nonneg_right h (le_of_lt hscale)
    _ ≤ scale := by linarith

/-- C8: over an ordered field, with `getFieldAs` and `setField` such that a field reads back
as written and writing one field leaves the others as they were.  When the scale of one of
X, Y, Z is positive and a point of the view stores in that field
`round((v - offset) / scale)`, the field of that point after `transform` differs from `v` by
at most the scale. -/
theorem transform_round_trip {K : Type} [LinearOrderedField K] [FloorRing K]
    (c : Collaborators P K) (t : TileContents P K)
    (hsame : ∀ (p : P) (d : Dimension.Id) (v : K), c.getFieldAs (c.setField p d v) d = v)
    (hother : ∀ (p : P) (d d2 : Dimension.Id) (v : K), d2 ≠ d →
      c.getFieldAs (c.setField p d v) d2 = c.getFieldAs p d2)
    (view : List P) (hview : t.m_view = some view)
    (i : Nat) (p : P) (hp : view[i]? = some p)
    (d : Dimension.Id) (hd : d = Dimension.Id.X ∨ d = Dimension.Id.Y ∨ d = Dimension.Id.Z)
    (v : K)
    (hscale : 0 < (t.m_info.dimType d).m_xform.m_scale.m_val)
    (hstored : c.getFieldAs p d
      = (round ((v - (t.m_info.dimType d).m_xform.m_offset.m_val)
          / (t.m_info.dimType d).m_xform.m_scale.m_val) : K)) :
    ∃ (view2 : List P) (q : P), (TileContents.transform c t).m_view = some view2 ∧
      view2[i]? = some q ∧
      |c.getFieldAs q d - v| ≤ (t.m_info.dimType d).m_xform.m_scale.m_val := by
  obtain ⟨view2, hv2, hlen, hfields⟩ := transform_fields c t hsame hother view hview
  have hi : i < view2.length := by
    rw [hlen]
    exact (List.getElem?_eq_some.mp hp).1
  refine ⟨view2, view2[i], hv2, List.getElem?_eq_getElem hi, ?_⟩
  rw [(hfields i p view2[i] hp (List.getElem?_eq_getElem hi)).1 d hd, hstored]
  exact scale_round_offset _ _ v hscale

/-- The witness of C8: scale 1/100, offset 5 and `v = 12.343`, stored as 734; `transform`
gives a value within 1/100 of `v`. -/
theorem transform_round_trip_witness :
    ∃ (view2 : List (Dimension.Id → ℚ)) (q : Dimension.Id → ℚ),
      (TileContents.transform Sample.collabQ Sample.tileQ).m_view = some view2 ∧
      view2[0]? = some q ∧
      |q Dimension.Id.X - 12343 / 1000| ≤ 1 / 100 :=
  transform_round_trip Sample.collabQ Sample.tileQ
    (fun p d v => by simp [Sample.collabQ])
    (fun p d d2 v h => by simp [Sample.collabQ, Function.update, h])
    [fun _ => 734] rfl 0 (fun _ => 734) rfl Dimension.Id.X (Or.inl rfl) (12343 / 1000)
    (by show (0 : ℚ) < 1 / 100; norm_num)
    (by
      show (734 : ℚ) = (round (((12343 : ℚ) / 1000 - 5) / (1 / 100)) : ℚ)
      have h : round (((12343 : ℚ) / 1000 - 5) / (1 / 100)) = 734 := by
        rw [round_eq, Int.floor_eq_iff]
        norm_num
      rw [h]
      norm_num)

end TileContentsThms

section SchemaThms

/-- A schema to which two dimensions with the id X were appended: the index of X is the
position of the first one, and that of an id never appended is -1. -/
theorem schema_index_duplicate :
    (Schema.ofAppends [⟨Dimension.Id.X, "a"⟩, ⟨Dimension.Id.Y, "b"⟩,
      ⟨Dimension.Id.X, "c"⟩]).getDimensionIndex Dimension.Id.X = 0 ∧
    (Schema.ofAppends [⟨Dimension.Id.X, "a"⟩, ⟨Dimension.Id.Y, "b"⟩,
      ⟨Dimension.Id.X, "c"⟩]).getDimension 0 = some ⟨Dimension.Id.X, "a"⟩ ∧
    (Schema.ofAppends [⟨Dimension.Id.X, "a"⟩, ⟨Dimension.Id.Y, "b"⟩,
      ⟨Dimension.Id.X, "c"⟩]).getDimensionIndex Dimension.Id.Z = -1 ∧
    (Schema.ofAppends [⟨Dimension.Id.X, "a"⟩, ⟨Dimension.Id.Y, "b"⟩,
      ⟨Dimension.Id.X, "c"⟩]).hasDimension Dimension.Id.Z = false := by
  refine ⟨by decide, by decide, by decide, by decide⟩

end SchemaThms


end pdal
